import Mathlib

/-!
# Verification of the claude-doc-bot job orchestration server

Shallow embedding of `api/src/server.ts` (JobManager, HTTP handlers) and of
the external worker boundary, with theorems settling the frozen claims about
the natural-language specification.

Conventions:
* `Date` values are modelled as `Nat` timestamps.
* The WebSocket broadcast is modelled as a list of emitted `Event`s.
* External collaborators (filesystem contents, the worker package) are
  modelled as oracle inputs (`Env`) supplying their outcomes.
-/

namespace DocBot

/-- Job status, from the `Job` interface in server.ts (line 12). -/
inductive Status
  | pending
  | running
  | completed
  | failed
deriving DecidableEq, Repr

/-- Outcome of one work unit. Modelled from the spec: the worker package is
not under src/; §3 of the spec defines UnitResult with success flag, artifact
reference, error message and timestamp, and server.ts reads `r.success`
(line 147). -/
structure UnitResult where
  success : Bool
  artifactRef : Option String
  errorMessage : Option String
  timestamp : Nat
deriving DecidableEq, Repr

/-- The `Job` record of server.ts lines 10-20. -/
structure Job where
  id : String
  status : Status
  progress : Nat
  total : Nat
  currentTask : String
  results : List UnitResult
  createdAt : Nat
  completedAt : Option Nat
  error : Option String
deriving DecidableEq, Repr

/-- A `Partial<Job>` argument to `updateJob`: `none` means the field is absent
from the update object. `id` and `createdAt` are never passed by any call
site, so they are omitted. -/
structure JobUpdates where
  status : Option Status := none
  progress : Option Nat := none
  total : Option Nat := none
  currentTask : Option String := none
  results : Option (List UnitResult) := none
  completedAt : Option Nat := none
  error : Option String := none

/-- `Object.assign(job, updates)` (server.ts line 54): every field present in
the update object overwrites the job's field; absent fields are unchanged. -/
def applyUpdates (j : Job) (u : JobUpdates) : Job :=
  { id := j.id
    status := u.status.getD j.status
    progress := u.progress.getD j.progress
    total := u.total.getD j.total
    currentTask := u.currentTask.getD j.currentTask
    results := u.results.getD j.results
    createdAt := j.createdAt
    completedAt := match u.completedAt with
      | some t => some t
      | none => j.completedAt
    error := match u.error with
      | some e => some e
      | none => j.error }

/-- The object broadcast as a `job_update` event (server.ts lines 60-68):
exactly the fields id, status, progress, total, currentTask, completedAt,
error. -/
structure JobUpdatePayload where
  id : String
  status : Status
  progress : Nat
  total : Nat
  currentTask : String
  completedAt : Option Nat
  error : Option String
deriving DecidableEq, Repr

/-- Projection of a job onto the broadcast payload (server.ts lines 60-68). -/
def payloadOf (j : Job) : JobUpdatePayload :=
  ⟨j.id, j.status, j.progress, j.total, j.currentTask, j.completedAt, j.error⟩

/-- Events pushed through the WebSocket broadcast. -/
inductive Event
  | jobUpdate : JobUpdatePayload → Event
  | log : String → Event
  | jobCompleted : Nat → Nat → Event
  | jobFailed : String → Event
deriving DecidableEq, Repr

/-- Association-list lookup over the job table (`Map.get`). -/
def lookupJob : List (String × Job) → String → Option Job
  | [], _ => none
  | (k, j) :: rest, i => if k = i then some j else lookupJob rest i

/-- Replace the entry for a key (`Map.set` on an existing key). -/
def setJob : List (String × Job) → String → Job → List (String × Job)
  | [], _, _ => []
  | (k, j) :: rest, i, j' =>
    if k = i then (k, j') :: rest else (k, j) :: setJob rest i j'

/-- `JobManager.updateJob` (server.ts lines 50-70): look up the job; if
absent, return with no change and no broadcast; otherwise assign the updates
and broadcast one `job_update` event carrying the payload of lines 60-68.
Returns the new table and the list of events emitted by this call. -/
def updateJob (tbl : List (String × Job)) (i : String) (u : JobUpdates) :
    List (String × Job) × List Event :=
  match lookupJob tbl i with
  | none => (tbl, [])
  | some j =>
    let j' := applyUpdates j u
    (setJob tbl i j', [Event.jobUpdate (payloadOf j')])

/-- JavaScript `String.prototype.endsWith`, modelled as a suffix check on
the character sequence (Lean's own `String.endsWith` does not reduce in the
kernel). -/
def strEndsWith (s p : String) : Bool := p.data.isSuffixOf s.data

/-- `path.resolve('../prompts')` (server.ts line 89), kept as a symbolic path. -/
def promptsDir : String := "../prompts"

/-- `path.join` on POSIX paths. -/
def pathJoin (d f : String) : String := d ++ "/" ++ f

/-- `path.resolve('../outputs', id)` (server.ts lines 116, 215, 282). -/
def outputDir (i : String) : String := "../outputs/" ++ i

/-- Oracle for the external collaborators of `runJob`: filesystem contents of
the prompts directory, prompt-file contents, and the worker package's
behaviour. The worker (`ClaudeWorker`) is not under src/; its behaviour is
modelled from the spec: `init` either succeeds or fails with a message;
`runJob` processes the units in order, reporting one `onProgress(i+1, total,
msg)` call per completed unit and returning one UnitResult per unit (unit
failures are recorded, never thrown, per §4.3e/§7); `cleanup` either succeeds
or fails with a message. -/
structure Env where
  tCreate : Nat
  tEnd : Nat
  promptsDirFiles : List String
  readFile : String → String
  workerInitError : Option String
  unitOutcome : Nat → UnitResult
  unitStatusMsg : Nat → String
  cleanupError : Option String

/-- `JobManager.createJob` (server.ts lines 30-44): a fresh pending job. -/
def initialJob (i : String) (t : Nat) : Job :=
  { id := i, status := .pending, progress := 0, total := 0, currentTask := ""
    results := [], createdAt := t, completedAt := none, error := none }

/-- The update object passed in the catch block (server.ts lines 170-175). -/
def failUpdates (msg : String) (t : Nat) : JobUpdates :=
  { status := some .failed, error := some msg, currentTask := some "Failed"
    completedAt := some t }

/-- The condition `customPrompts && customPrompts.length > 0` (line 81). -/
def useCustom : Option (List String) → Bool
  | some ps => decide (0 < ps.length)
  | none => false

/-- The log line broadcast per unit (server.ts line 132). -/
def unitLogLine (cur total : Nat) (msg : String) : String :=
  "[" ++ toString cur ++ "/" ++ toString total ++ "] " ++ msg

/-- The update object passed by the `onProgress` handler (server.ts
lines 123-127): progress, total and currentTask — note, no `results`. -/
def onProgressUpdates (cur total : Nat) (msg : String) : JobUpdates :=
  { progress := some cur, total := some total, currentTask := some msg }

/-- Prompt resolution (server.ts lines 79-106): either the custom prompts
verbatim, or the trimmed contents of the `.txt` files of the prompts
directory; an error if that filtered list is empty. -/
def resolvePrompts (env : Env) (custom : Option (List String)) :
    Except String (List String) :=
  if useCustom custom then Except.ok (custom.getD [])
  else
    let files := env.promptsDirFiles.filter (fun f => strEndsWith f ".txt")
    if files.length = 0 then
      Except.error "No .txt files found in prompts folder"
    else
      Except.ok (files.map (fun f => (env.readFile (pathJoin promptsDir f)).trim))

/-- Output of the per-unit loop. -/
structure LoopOut where
  finalJob : Job
  snaps : List Job
  events : List Event
  results : List UnitResult

/-- The worker's unit loop as observed through server.ts: per unit `i`
(0-based), the `onProgress` handler (server.ts lines 122-135) applies the
update `{progress := i+1, total, currentTask := msg}` and broadcasts the
`job_update` of that mutation followed by one `log` event. `fuel` counts the
units still to process; the call `unitLoop env total total 0 j` processes all
`total` units. The worker's call pattern is modelled from the spec (one
progress report per completed unit); the mutation itself is src code. -/
def unitLoop (env : Env) (total : Nat) : Nat → Nat → Job → LoopOut
  | 0, _, j => ⟨j, [], [], []⟩
  | fuel + 1, i, j =>
    let r := env.unitOutcome i
    let msg := env.unitStatusMsg i
    let j' := applyUpdates j (onProgressUpdates (i + 1) total msg)
    let o := unitLoop env total fuel (i + 1) j'
    ⟨o.finalJob, j' :: o.snaps,
      Event.jobUpdate (payloadOf j') :: Event.log (unitLogLine (i + 1) total msg) :: o.events,
      r :: o.results⟩

/-- Everything `runJob` produced that is observable: the sequence of job
snapshots (initial job followed by the job after each registry mutation, in
program order), the broadcast events in order, the retention timers armed
via `setTimeout` as (directory, delay-ms) pairs, and the resolved unit
list (`none` when resolution failed). -/
structure RunResult where
  snapshots : List Job
  events : List Event
  armed : List (String × Nat)
  units : Option (List String)
deriving Repr

/-- The job after the first mutation of `runJob` (server.ts line 77):
status running, `currentTask = "Initializing..."`. -/
def jobAfterRunning (env : Env) (i : String) : Job :=
  applyUpdates (initialJob i env.tCreate)
    { status := some .running, currentTask := some "Initializing..." }

/-- The job after the `currentTask` mutation of the prompt-resolution branch
taken (server.ts line 84 or 87). -/
def jobAfterResolveMsg (env : Env) (i : String) (custom : Option (List String)) : Job :=
  applyUpdates (jobAfterRunning env i)
    { currentTask := some (if useCustom custom then
        "Using custom prompts..." else "Loading demo prompts...") }

/-- The job after the `total` mutation (server.ts line 108). -/
def jobAfterTotal (env : Env) (i : String) (custom : Option (List String)) (n : Nat) : Job :=
  applyUpdates (jobAfterResolveMsg env i custom) { total := some n }

/-- `JobManager.runJob` (server.ts lines 72-182), as a trace over the oracle:
running transition; prompt resolution (throwing into the catch block when no
default prompts exist); `total` update; `worker.init()` (throwing into the
catch block on failure); the unit loop; the completed update, summary
broadcast and the one-hour `setTimeout` cleanup (line 155, armed only on this
path); then `worker.cleanup()` in the `finally` — if cleanup throws, the
outer catch re-mutates the already-completed job to failed. -/
def runJob (env : Env) (i : String) (custom : Option (List String)) : RunResult :=
  let j0 := initialJob i env.tCreate
  let j1 := jobAfterRunning env i
  let e1 := Event.jobUpdate (payloadOf j1)
  let j2 := jobAfterResolveMsg env i custom
  let e2 := Event.jobUpdate (payloadOf j2)
  match resolvePrompts env custom with
  | .error msg =>
    let j3 := applyUpdates j2 (failUpdates msg env.tEnd)
    { snapshots := [j0, j1, j2, j3]
      events := [e1, e2, Event.jobUpdate (payloadOf j3), Event.jobFailed msg]
      armed := [], units := none }
  | .ok prompts =>
    let j3 := jobAfterTotal env i custom prompts.length
    let e3 := Event.jobUpdate (payloadOf j3)
    match env.workerInitError with
    | some msg =>
      let j4 := applyUpdates j3 (failUpdates msg env.tEnd)
      { snapshots := [j0, j1, j2, j3, j4]
        events := [e1, e2, e3, Event.jobUpdate (payloadOf j4), Event.jobFailed msg]
        armed := [], units := some prompts }
    | none =>
      let n := prompts.length
      let o := unitLoop env n n 0 j3
      let j5 := applyUpdates o.finalJob
        { status := some .completed, progress := some n
          currentTask := some "Completed successfully", results := some o.results
          completedAt := some env.tEnd }
      let e5 := Event.jobUpdate (payloadOf j5)
      let eSum := Event.jobCompleted ((o.results.filter (·.success)).length) o.results.length
      match env.cleanupError with
      | none =>
        { snapshots := [j0, j1, j2, j3] ++ o.snaps ++ [j5]
          events := [e1, e2, e3] ++ o.events ++ [e5, eSum]
          armed := [(outputDir i, 3600000)], units := some prompts }
      | some msg =>
        let j6 := applyUpdates j5 (failUpdates msg env.tEnd)
        { snapshots := [j0, j1, j2, j3] ++ o.snaps ++ [j5, j6]
          events := [e1, e2, e3] ++ o.events ++
            [e5, eSum, Event.jobUpdate (payloadOf j6), Event.jobFailed msg]
          armed := [(outputDir i, 3600000)], units := some prompts }

/-- The body of the armed `setTimeout` callback (server.ts lines 155-162):
`fs.remove` inside try/catch; whatever the remove does (including failing on
an already-missing directory), no error escapes the callback. Returns whether
an error escapes. -/
def timerCallback (removeFails : Bool) : Bool :=
  match removeFails with
  | true => false
  | false => false

/-- One entry of the `outputs` array returned by `GET /api/outputs/:jobId`
(server.ts lines 292-295). -/
structure OutputEntry where
  filename : String
  downloadUrl : String
deriving DecidableEq, Repr

/-- Response of `GET /api/outputs/:jobId`. -/
inductive OutputsResp
  | notFound
  | ok : List OutputEntry → OutputsResp
deriving DecidableEq, Repr

/-- The filesystem under the outputs root, as directory-path ↦ list of file
names present. -/
def lookupDir : List (String × List String) → String → Option (List String)
  | [], _ => none
  | (d, fs) :: rest, p => if d = p then some fs else lookupDir rest p

/-- `GET /api/outputs/:jobId` (server.ts lines 272-304): 404 when the job id
is unknown; `{ outputs: [] }` when the job's output directory does not exist;
otherwise the directory's files filtered to names ending in `.md`, mapped to
`{ filename, downloadUrl }` pairs. -/
def outputsHandler (tbl : List (String × Job)) (fs : List (String × List String))
    (jobId : String) : OutputsResp :=
  match lookupJob tbl jobId with
  | none => .notFound
  | some _ =>
    match lookupDir fs (outputDir jobId) with
    | none => .ok []
    | some files =>
      .ok ((files.filter (fun f => strEndsWith f ".md")).map
        (fun f => ⟨f, "/outputs/" ++ jobId ++ "/" ++ f⟩))

/-- Response of `GET /outputs/:jobId/:filename`. -/
inductive ServeResp
  | jobNotFound
  | fileNotFound
  | serveFile : String → String → ServeResp
deriving DecidableEq, Repr

/-- `fs.pathExists` on a file inside a job's output directory. -/
def pathExistsFile (fs : List (String × List String)) (d f : String) : Bool :=
  match lookupDir fs d with
  | some files => files.contains f
  | none => false

/-- `GET /outputs/:jobId/:filename` (server.ts lines 205-230): 404 when the
job id is unknown; 404 when the file does not exist; otherwise the file is
served with `Content-Type: text/markdown` and an attachment
`Content-Disposition`, regardless of the file's extension. -/
def fileHandler (tbl : List (String × Job)) (fs : List (String × List String))
    (jobId filename : String) : ServeResp :=
  match lookupJob tbl jobId with
  | none => .jobNotFound
  | some _ =>
    if pathExistsFile fs (outputDir jobId) filename then
      .serveFile "text/markdown" ("attachment; filename=\"" ++ filename ++ "\"")
    else
      .fileNotFound

/-- State of one Job Runner thread with respect to the Task Executor.
Modelled from the spec: the per-unit executor loop lives in the worker
package (not under src/); per §9 of the spec the source has no admission
guard around executor invocations ("no guard preventing two jobs from
driving the shared automation resource simultaneously"), so starting a unit
requires no permit. `unitsLeft` counts units not yet started; `inExec` holds
between a unit's executor call starting and that call returning, the two
suspension points the runner alternates between. -/
structure ThreadSt where
  unitsLeft : Nat
  inExec : Bool
deriving DecidableEq, Repr

/-- One atomic step of a runner thread: an in-flight executor call returns,
or — with no permit to acquire — the next unit's executor call starts; a
thread with no units left and nothing in flight is done. -/
def threadStep : ThreadSt → Option ThreadSt
  | ⟨u, true⟩ => some ⟨u, false⟩
  | ⟨u + 1, false⟩ => some ⟨u, true⟩
  | ⟨0, false⟩ => none

/-- Scheduler step: run thread `k`'s next action, if any. -/
def sysStep (ts : List ThreadSt) (k : Nat) : List ThreadSt :=
  match ts[k]? with
  | some t =>
    match threadStep t with
    | some t' => ts.set k t'
    | none => ts
  | none => ts

/-- Number of executor calls in flight: the threads currently inside an
executor invocation. -/
def inFlight (ts : List ThreadSt) : Nat := (ts.filter (·.inExec)).length

/-- All states visited when running a schedule (a list of thread indices)
from a start state. -/
def statesOf (ts : List ThreadSt) : List Nat → List (List ThreadSt)
  | [] => [ts]
  | k :: sched => ts :: statesOf (sysStep ts k) sched

/-- Maximum number of concurrently in-flight executor calls over a run. -/
def maxInFlight (ts : List ThreadSt) (sched : List Nat) : Nat :=
  ((statesOf ts sched).map inFlight).foldr max 0

/-- `true` on the two terminal statuses. -/
def isTerminal : Status → Bool
  | .completed => true
  | .failed => true
  | _ => false

/-- `true` on a non-empty block of `running` statuses followed by one
terminal status. -/
def runningThenTerminal : List Status → Bool
  | [] => false
  | [t] => isTerminal t
  | .running :: rest => runningThenTerminal rest
  | _ => false

/-- `true` exactly on status traces of the shape
`pending :: running … running :: [terminal]` (at least one `running`): the
job status is monotone along `pending → running → {completed, failed}`,
`running` forms one contiguous block, and nothing follows the terminal
status. -/
def isMonotoneRun : List Status → Bool
  | .pending :: .running :: rest => runningThenTerminal (.running :: rest)
  | _ => false

/-- The list of outputs carried by an `ok` outputs response. -/
def respOutputs : OutputsResp → Option (List OutputEntry)
  | .ok outs => some outs
  | .notFound => none

/-- The unit list produced by the default unit source (server.ts
lines 89-105): the `.txt` files of the prompts directory, each file's
content trimmed; `none` when no `.txt` file exists. -/
def defaultUnits (env : Env) : Option (List String) :=
  let files := env.promptsDirFiles.filter (fun f => strEndsWith f ".txt")
  if files.length = 0 then none
  else some (files.map (fun f => (env.readFile (pathJoin promptsDir f)).trim))

/-- A sample job used to instantiate theorems with hypotheses. -/
def sampleJob : Job := initialJob "a" 0

/-- Two jobs, identical except for `results` and `createdAt`. -/
def jobResA : Job :=
  { id := "j", status := .completed, progress := 1, total := 1
    currentTask := "Completed successfully"
    results := [⟨true, some "doc.md", none, 5⟩]
    createdAt := 3, completedAt := some 9, error := none }

/-- Same job as `jobResA` but with different `results` and `createdAt`. -/
def jobResB : Job := { jobResA with results := [], createdAt := 4 }

/-- A concrete oracle: one default `.txt` prompt file and one stray file,
worker succeeding on every unit, no failures anywhere. -/
def envA : Env :=
  { tCreate := 0, tEnd := 9, promptsDirFiles := ["a.txt", "b.md"]
    readFile := fun _ => " hello "
    workerInitError := none
    unitOutcome := fun k => ⟨true, some "doc.md", none, k⟩
    unitStatusMsg := fun k => "unit " ++ toString k
    cleanupError := none }

/-- Same oracle, but `worker.cleanup()` rejects. -/
def envC3 : Env := { envA with cleanupError := some "cleanup failed" }

/-- Same oracle, but the prompts directory is empty. -/
def envEmpty : Env := { envA with promptsDirFiles := [] }

/-! ## Helper lemmas -/

theorem lookupJob_setJob (tbl : List (String × Job)) (i : String) (j j' : Job)
    (h : lookupJob tbl i = some j) : lookupJob (setJob tbl i j') i = some j' := by
  induction tbl with
  | nil => simp [lookupJob] at h
  | cons p rest ih =>
    obtain ⟨k, jj⟩ := p
    by_cases hk : k = i
    · simp [lookupJob, setJob, hk]
    · simp only [lookupJob, setJob, hk, if_false] at h ⊢
      exact ih h

/-! ## Claims about the Registry mutation path (server.ts lines 50-70) -/

/-- Claim C8: calling `updateJob` with an id not in the job table is a silent
no-op — the table is unchanged, no error is raised (the function is total) and
no broadcast event is emitted; with a known id, the whole update object is
applied and the table entry becomes the fully updated job, with its broadcast
emitted. -/
theorem updateJob_contract (tbl : List (String × Job)) (i : String) (u : JobUpdates) :
    (lookupJob tbl i = none → updateJob tbl i u = (tbl, []))
    ∧ (∀ j, lookupJob tbl i = some j →
        lookupJob (updateJob tbl i u).1 i = some (applyUpdates j u)
        ∧ (updateJob tbl i u).2 = [Event.jobUpdate (payloadOf (applyUpdates j u))]) := by
  constructor
  · intro h; simp [updateJob, h]
  · intro j h
    refine ⟨?_, by simp [updateJob, h]⟩
    simp only [updateJob, h]
    exact lookupJob_setJob tbl i j (applyUpdates j u) h

/-- Witness for C8: both branches of `updateJob_contract` at concrete inputs. -/
theorem updateJob_contract_witness :
    (updateJob [] "a" {} = ([], []))
    ∧ lookupJob (updateJob [("a", sampleJob)] "a" { status := some .running }).1 "a"
        = some (applyUpdates sampleJob { status := some .running }) :=
  ⟨(updateJob_contract [] "a" {}).1 rfl,
   ((updateJob_contract [("a", sampleJob)] "a" { status := some .running }).2
      sampleJob (by decide)).1⟩

/-- Claim C4 counterexample: the `job_update` payload (server.ts lines 60-68)
does not carry the full §3 snapshot — two jobs differing in `results` and
`createdAt` broadcast identical payloads, so those fields are absent from the
event. -/
theorem payload_not_full_snapshot :
    payloadOf jobResA = payloadOf jobResB
    ∧ jobResA.results ≠ jobResB.results
    ∧ jobResA.createdAt ≠ jobResB.createdAt := by decide

/-- Claim C4 (amended): every successful `updateJob` emits exactly one
`job_update` event, whose payload carries id, status, progress, total,
currentTask, completedAt and error of the updated job (but not `results` or
`createdAt`). -/
theorem one_broadcast_per_mutation (tbl : List (String × Job)) (i : String)
    (u : JobUpdates) (j : Job) (h : lookupJob tbl i = some j) :
    (updateJob tbl i u).2 = [Event.jobUpdate (payloadOf (applyUpdates j u))] := by
  simp [updateJob, h]

/-- Witness for C4's amended theorem at a concrete table and update. -/
theorem one_broadcast_per_mutation_witness :
    (updateJob [("a", sampleJob)] "a" { status := some .running }).2
      = [Event.jobUpdate (payloadOf (applyUpdates sampleJob { status := some .running }))] :=
  one_broadcast_per_mutation [("a", sampleJob)] "a"
    { status := some .running } sampleJob (by decide)

/-! ## Claims about executor serialization (C1) -/

/-- Invariant of the unit loop: starting from a running job with empty
results and `total` already set, every intermediate snapshot stays running
with empty `results`, `progress` bounded by `total` and `total` unchanged;
the loop yields one UnitResult and one snapshot per unit. -/
theorem unitLoop_spec (env : Env) (total : Nat) :
    ∀ fuel i j, j.status = .running → j.results = [] → j.total = total →
      i + fuel ≤ total →
      (∀ s ∈ (unitLoop env total fuel i j).snaps,
          s.status = .running ∧ s.results = [] ∧ s.progress ≤ total ∧ s.total = total)
      ∧ (unitLoop env total fuel i j).finalJob.status = .running
      ∧ (unitLoop env total fuel i j).finalJob.results = []
      ∧ (unitLoop env total fuel i j).finalJob.total = total
      ∧ (unitLoop env total fuel i j).results.length = fuel
      ∧ (unitLoop env total fuel i j).snaps.length = fuel := by
  intro fuel
  induction fuel with
  | zero =>
    intro i j h1 h2 h3 _
    simp [unitLoop, h1, h2, h3]
  | succ fuel ih =>
    intro i j h1 h2 h3 h4
    have hs : (applyUpdates j (onProgressUpdates (i + 1) total
        (env.unitStatusMsg i))).status = .running := by
      simp [applyUpdates, onProgressUpdates, h1]
    have hr : (applyUpdates j (onProgressUpdates (i + 1) total
        (env.unitStatusMsg i))).results = [] := by
      simp [applyUpdates, onProgressUpdates, h2]
    have ht : (applyUpdates j (onProgressUpdates (i + 1) total
        (env.unitStatusMsg i))).total = total := by
      simp [applyUpdates, onProgressUpdates]
    obtain ⟨ihsnaps, ihfs, ihfr, ihft, ihlen, ihslen⟩ :=
      ih (i + 1) _ hs hr ht (by omega)
    refine ⟨?_, ?_, ?_, ?_, ?_, ?_⟩
    · intro s hsn
      simp only [unitLoop, List.mem_cons] at hsn
      rcases hsn with h | h
      · subst h
        refine ⟨hs, hr, ?_, ht⟩
        simp only [applyUpdates, onProgressUpdates]
        simp
        omega
      · exact ihsnaps s h
    · simpa [unitLoop] using ihfs
    · simpa [unitLoop] using ihfr
    · simpa [unitLoop] using ihft
    · simpa [unitLoop] using ihlen
    · simpa [unitLoop] using ihslen

/-- The statuses seen along the unit loop are uniformly `running`. -/
theorem unitLoop_status_replicate (env : Env) (total fuel i : Nat) (j : Job)
    (h1 : j.status = .running) (h2 : j.results = []) (h3 : j.total = total)
    (h4 : i + fuel ≤ total) :
    ((unitLoop env total fuel i j).snaps.map (·.status))
      = List.replicate fuel Status.running := by
  obtain ⟨hsnaps, _, _, _, _, hslen⟩ := unitLoop_spec env total fuel i j h1 h2 h3 h4
  refine List.eq_replicate_iff.2 ⟨by simp [hslen], ?_⟩
  intro b hb
  obtain ⟨s, hs, rfl⟩ := List.mem_map.1 hb
  exact (hsnaps s hs).1

/-- Claim C1 counterexample: two concurrently running jobs of one unit each,
scheduled so each starts its unit's executor call before either returns,
reach two concurrently in-flight Task Executor calls — there is no global
admission gate, so the claimed system-wide max of one in-flight call fails. -/
theorem two_jobs_two_in_flight :
    maxInFlight [⟨1, false⟩, ⟨1, false⟩] [0, 1] = 2 := by decide

theorem inFlight_le_length (ts : List ThreadSt) : inFlight ts ≤ ts.length :=
  List.length_filter_le _ _

theorem sysStep_length (ts : List ThreadSt) (k : Nat) :
    (sysStep ts k).length = ts.length := by
  unfold sysStep
  cases h : ts[k]? with
  | none => rfl
  | some t => cases h2 : threadStep t <;> simp [h2]

theorem statesOf_length (ts : List ThreadSt) (sched : List Nat) :
    ∀ s ∈ statesOf ts sched, s.length = ts.length := by
  induction sched generalizing ts with
  | nil =>
    intro s hs
    simp only [statesOf, List.mem_singleton] at hs
    simp [hs]
  | cons k sched ih =>
    intro s hs
    simp only [statesOf, List.mem_cons] at hs
    rcases hs with h | h
    · simp [h]
    · rw [ih _ s h, sysStep_length]

/-- Claim C1 (amended): serialization holds only per job — a single Job
Runner never has two executor calls in flight (every state reachable from one
runner thread has at most one in-flight call); across jobs no serializer
exists (see `two_jobs_two_in_flight`). -/
theorem per_job_at_most_one_in_flight (n : Nat) (sched : List Nat)
    (s : List ThreadSt) (hs : s ∈ statesOf [⟨n, false⟩] sched) :
    inFlight s ≤ 1 := by
  have hlen := statesOf_length [⟨n, false⟩] sched s hs
  calc inFlight s ≤ s.length := inFlight_le_length s
    _ = 1 := by simpa using hlen

/-- Witness for C1's amended theorem: one single-unit runner, one step. -/
theorem per_job_at_most_one_in_flight_witness :
    [ThreadSt.mk 0 true] ∈ statesOf [⟨1, false⟩] [0]
    ∧ inFlight [⟨0, true⟩] ≤ 1 :=
  ⟨by decide, per_job_at_most_one_in_flight 1 [0] [⟨0, true⟩] (by decide)⟩

/-! ## Field lemmas for the intermediate jobs of `runJob` -/

theorem jobAfterRunning_status (env : Env) (i : String) :
    (jobAfterRunning env i).status = .running := rfl

theorem jobAfterResolveMsg_status (env : Env) (i : String) (custom : Option (List String)) :
    (jobAfterResolveMsg env i custom).status = .running := rfl

theorem jobAfterTotal_status (env : Env) (i : String) (custom : Option (List String)) (n : Nat) :
    (jobAfterTotal env i custom n).status = .running := by
  simp [jobAfterTotal, jobAfterResolveMsg, jobAfterRunning, initialJob, applyUpdates]

theorem jobAfterTotal_results (env : Env) (i : String) (custom : Option (List String)) (n : Nat) :
    (jobAfterTotal env i custom n).results = [] := by
  simp [jobAfterTotal, jobAfterResolveMsg, jobAfterRunning, initialJob, applyUpdates]

theorem jobAfterTotal_total (env : Env) (i : String) (custom : Option (List String)) (n : Nat) :
    (jobAfterTotal env i custom n).total = n := by
  simp [jobAfterTotal, applyUpdates]

/-! ## Claim C2: progress / results invariants of the observable snapshots -/

/-- Claim C2 counterexample: after the first unit of a two-unit job, the
snapshot observable through `GET /api/status` has `progress = 1` while
`results` is still empty — the `onProgress` handler (server.ts lines 122-127)
does not append to `results`, so `len(results) = progress` fails mid-run. -/
theorem results_lag_progress_snapshot :
    ((runJob envA "j1" (some ["A", "B"])).snapshots[4]?).map
      (fun s => (s.status, s.progress, s.results.length)) = some (.running, 1, 0) := by
  decide

/-- Claim C2 (amended): at every snapshot `0 ≤ progress ≤ total` holds, and
`results.length = progress` holds at every snapshot whose status is not
`running`; while `running`, `results` stays empty even as `progress`
advances (`results` is assigned once, at the completed transition). -/
theorem progress_bounds_and_results (env : Env) (i : String) (custom : Option (List String)) :
    ∀ s ∈ (runJob env i custom).snapshots,
      s.progress ≤ s.total
      ∧ (s.status ≠ .running → s.results.length = s.progress)
      ∧ (s.status = .running → s.results = []) := by
  intro s hs
  simp only [runJob] at hs
  split at hs
  · simp only [List.mem_cons, List.not_mem_nil, or_false] at hs
    rcases hs with rfl | rfl | rfl | rfl <;>
      simp [initialJob, applyUpdates, failUpdates, jobAfterRunning, jobAfterResolveMsg]
  · rename_i prompts heq
    obtain ⟨hsnaps, hfs, hfr, hftot, hreslen, hslen⟩ :=
      unitLoop_spec env prompts.length prompts.length 0
        (jobAfterTotal env i custom prompts.length)
        (jobAfterTotal_status env i custom prompts.length)
        (jobAfterTotal_results env i custom prompts.length)
        (jobAfterTotal_total env i custom prompts.length)
        (by omega)
    split at hs
    · simp only [List.mem_cons, List.not_mem_nil, or_false] at hs
      rcases hs with rfl | rfl | rfl | rfl | rfl <;>
        simp [initialJob, applyUpdates, failUpdates, jobAfterRunning, jobAfterResolveMsg,
          jobAfterTotal]
    · split at hs
      · simp only [List.append_assoc, List.mem_append, List.mem_cons,
          List.not_mem_nil, or_false, List.mem_singleton] at hs
        rcases hs with (rfl | rfl | rfl | rfl) | hs | rfl
        · simp [initialJob]
        · simp [jobAfterRunning, initialJob, applyUpdates]
        · simp [jobAfterResolveMsg, jobAfterRunning, initialJob, applyUpdates]
        · simp [jobAfterTotal, jobAfterResolveMsg, jobAfterRunning, initialJob, applyUpdates]
        · obtain ⟨hs1, hs2, hs3, hs4⟩ := hsnaps s hs
          refine ⟨by rw [hs4]; exact hs3, fun h => absurd hs1 h, fun _ => hs2⟩
        · simp [applyUpdates, hftot, hreslen]
      · simp only [List.append_assoc, List.mem_append, List.mem_cons,
          List.not_mem_nil, or_false, List.mem_singleton] at hs
        rcases hs with (rfl | rfl | rfl | rfl) | hs | rfl | rfl
        · simp [initialJob]
        · simp [jobAfterRunning, initialJob, applyUpdates]
        · simp [jobAfterResolveMsg, jobAfterRunning, initialJob, applyUpdates]
        · simp [jobAfterTotal, jobAfterResolveMsg, jobAfterRunning, initialJob, applyUpdates]
        · obtain ⟨hs1, hs2, hs3, hs4⟩ := hsnaps s hs
          refine ⟨by rw [hs4]; exact hs3, fun h => absurd hs1 h, fun _ => hs2⟩
        · simp [applyUpdates, hftot, hreslen]
        · simp [applyUpdates, failUpdates, hftot, hreslen]

/-- Witness for C2's amended theorem at the initial snapshot of a concrete
run. -/
theorem progress_bounds_and_results_witness :
    (initialJob "j1" 0) ∈ (runJob envA "j1" (some ["A"])).snapshots
    ∧ (initialJob "j1" 0).progress ≤ (initialJob "j1" 0).total
    ∧ (initialJob "j1" 0).results.length = (initialJob "j1" 0).progress :=
  ⟨by decide,
   (progress_bounds_and_results envA "j1" (some ["A"]) (initialJob "j1" 0) (by decide)).1,
   (progress_bounds_and_results envA "j1" (some ["A"]) (initialJob "j1" 0) (by decide)).2.1
     (by decide)⟩

/-! ## Claim C3: status monotonicity of the observable trace -/

theorem runningThenTerminal_cons_cons (a : Status) (as : List Status) :
    runningThenTerminal (.running :: a :: as) = runningThenTerminal (a :: as) := by
  simp [runningThenTerminal]

theorem runningThenTerminal_append (k : Nat) (l : List Status)
    (hl : runningThenTerminal l = true) :
    runningThenTerminal (List.replicate k .running ++ l) = true := by
  induction k with
  | zero => simpa using hl
  | succ k ih =>
    rw [List.replicate_succ, List.cons_append]
    cases hx : List.replicate k Status.running ++ l with
    | nil =>
      rcases List.append_eq_nil.1 hx with ⟨-, rfl⟩
      simp [runningThenTerminal] at hl
    | cons a as =>
      rw [runningThenTerminal_cons_cons, ← hx]
      exact ih

/-- Claim C3 counterexample: when `worker.cleanup()` rejects after the
completed update, the catch block (server.ts lines 168-181) re-mutates the
already-completed job to `failed` — the trace shows `completed` followed by
`failed`, so terminal states are not absorbing. -/
theorem completed_then_failed_on_cleanup_error :
    (runJob envC3 "j1" (some ["A"])).snapshots.map (·.status)
      = [.pending, .running, .running, .running, .running, .completed, .failed]
    ∧ isMonotoneRun ((runJob envC3 "j1" (some ["A"])).snapshots.map (·.status)) = false := by
  decide

/-- Claim C3 (amended): provided the executor teardown (`worker.cleanup`)
does not fail, every observable status trace has the shape
`pending :: running … running :: [terminal]` — status moves only along
`pending → running → {completed, failed}`, `running` is entered exactly once,
and nothing is mutated after the terminal state. -/
theorem status_monotone_trace (env : Env) (i : String) (custom : Option (List String))
    (h : env.cleanupError = none) :
    isMonotoneRun ((runJob env i custom).snapshots.map (·.status)) = true := by
  rcases hres : resolvePrompts env custom with msg | prompts
  · have hmap : (runJob env i custom).snapshots.map (·.status)
        = [.pending, .running, .running, .failed] := by
      simp [runJob, hres, initialJob, applyUpdates, failUpdates, jobAfterRunning,
        jobAfterResolveMsg]
    rw [hmap]; decide
  · rcases hini : env.workerInitError with _ | msg
    · have hrep := unitLoop_status_replicate env prompts.length prompts.length 0
        (jobAfterTotal env i custom prompts.length)
        (jobAfterTotal_status env i custom prompts.length)
        (jobAfterTotal_results env i custom prompts.length)
        (jobAfterTotal_total env i custom prompts.length)
        (by omega)
      have hmap : (runJob env i custom).snapshots.map (·.status)
          = .pending :: .running :: .running :: .running ::
            (List.replicate prompts.length .running ++ [.completed]) := by
        simp only [runJob, hres, hini, h]
        simp only [List.map_append, List.map_cons, List.map_nil, hrep]
        simp [initialJob, applyUpdates, jobAfterRunning_status, jobAfterResolveMsg_status,
          jobAfterTotal_status]
      rw [hmap]
      simp only [isMonotoneRun]
      exact runningThenTerminal_append 3 _
        (runningThenTerminal_append prompts.length _ rfl)
    · have hmap : (runJob env i custom).snapshots.map (·.status)
          = [.pending, .running, .running, .running, .failed] := by
        simp [runJob, hres, hini, initialJob, applyUpdates, failUpdates, jobAfterRunning,
          jobAfterResolveMsg, jobAfterTotal]
      rw [hmap]; decide

/-- Witness for C3's amended theorem on a concrete failure-free run. -/
theorem status_monotone_trace_witness :
    envA.cleanupError = none
    ∧ isMonotoneRun ((runJob envA "j1" (some ["A"])).snapshots.map (·.status)) = true :=
  ⟨rfl, status_monotone_trace envA "j1" (some ["A"]) rfl⟩

/-! ## Claim C5: retention scheduling -/

/-- Claim C5 counterexample: a job that reaches the `failed` terminal state
arms no retention timer at all — the one-hour `setTimeout` (server.ts
lines 155-162) exists only on the completed path, so "on every terminal
transition the Retention Scheduler is armed exactly once" fails. -/
theorem failed_job_arms_no_timer :
    ((runJob envEmpty "j1" none).snapshots.getLast?.map (·.status) = some .failed)
    ∧ (runJob envEmpty "j1" none).armed = [] := by
  decide

/-- Claim C5 (amended): the retention deletion of the job's output directory,
with a one-hour delay (3600000 ms), is armed exactly once if and only if the
run reaches `completed`; on the `failed` path nothing is armed; the armed
callback never lets an error escape, so a missing directory at fire time is
not an error. -/
theorem retention_armed_iff_completed (env : Env) (i : String) (custom : Option (List String)) :
    ((∃ s ∈ (runJob env i custom).snapshots, s.status = .completed) →
        (runJob env i custom).armed = [(outputDir i, 3600000)])
    ∧ ((∀ s ∈ (runJob env i custom).snapshots, s.status ≠ .completed) →
        (runJob env i custom).armed = [])
    ∧ (∀ b, timerCallback b = false) := by
  refine ⟨?_, ?_, fun b => by cases b <;> rfl⟩
  · intro hex
    rcases hres : resolvePrompts env custom with msg | prompts
    · exfalso
      simp only [runJob, hres] at hex
      simp [initialJob, applyUpdates, failUpdates, jobAfterRunning,
        jobAfterResolveMsg] at hex
    · rcases hini : env.workerInitError with _ | msg
      · rcases hcl : env.cleanupError with _ | m2 <;> simp [runJob, hres, hini, hcl]
      · exfalso
        simp only [runJob, hres, hini] at hex
        simp [initialJob, applyUpdates, failUpdates, jobAfterRunning,
          jobAfterResolveMsg, jobAfterTotal, jobAfterTotal_status] at hex
  · intro hall
    rcases hres : resolvePrompts env custom with msg | prompts
    · simp [runJob, hres]
    · rcases hini : env.workerInitError with _ | msg
      · exfalso
        simp only [runJob, hres, hini] at hall
        rcases hcl : env.cleanupError with _ | m2
        · simp only [hcl] at hall
          simp [applyUpdates, List.mem_append] at hall
          obtain ⟨-, -, -, -, hlast⟩ := hall
          exact hlast _ (Or.inr rfl) rfl
        · simp only [hcl] at hall
          simp [applyUpdates, List.mem_append] at hall
          obtain ⟨-, -, -, -, hlast⟩ := hall
          exact hlast _ (Or.inr (Or.inl rfl)) rfl
      · simp [runJob, hres, hini]

/-- Witness for C5's amended theorem: a completed run arms the one-hour
deletion of its output directory. -/
theorem retention_armed_iff_completed_witness :
    (runJob envA "j1" (some ["A"])).armed = [(outputDir "j1", 3600000)] :=
  (retention_armed_iff_completed envA "j1" (some ["A"])).1 (by decide)

/-! ## Claim C6: empty default unit source -/

/-- Claim C6: with no custom prompts and a default unit source yielding zero
`.txt` files, the job ends `failed` with the non-empty error message of
server.ts line 97, `total` still `0`, `results` still empty, no unit-loop
snapshot (exactly the four resolution-phase snapshots) and no resolved unit
list. -/
theorem empty_default_source_fails (env : Env) (i : String)
    (h : env.promptsDirFiles.filter (fun f => strEndsWith f ".txt") = []) :
    (runJob env i none).snapshots.getLast?.map (·.status) = some .failed
    ∧ (runJob env i none).snapshots.getLast?.map (·.error)
        = some (some "No .txt files found in prompts folder")
    ∧ ("No .txt files found in prompts folder" : String) ≠ ""
    ∧ (runJob env i none).snapshots.getLast?.map (·.total) = some 0
    ∧ (runJob env i none).snapshots.getLast?.map (·.results) = some []
    ∧ (runJob env i none).snapshots.length = 4
    ∧ (runJob env i none).units = none := by
  have hres : resolvePrompts env none = .error "No .txt files found in prompts folder" := by
    simp [resolvePrompts, useCustom, h]
  have hlast : (runJob env i none).snapshots.getLast?
      = some (applyUpdates (jobAfterResolveMsg env i none)
          (failUpdates "No .txt files found in prompts folder" env.tEnd)) := by
    simp only [runJob, hres]
    rfl
  refine ⟨?_, ?_, by decide, ?_, ?_, ?_, ?_⟩
  · rw [hlast]
    simp [applyUpdates, failUpdates]
  · rw [hlast]
    simp [applyUpdates, failUpdates]
  · rw [hlast]
    simp [applyUpdates, failUpdates, jobAfterResolveMsg, jobAfterRunning, initialJob]
  · rw [hlast]
    simp [applyUpdates, failUpdates, jobAfterResolveMsg, jobAfterRunning, initialJob]
  · simp only [runJob, hres]
    rfl
  · simp only [runJob, hres]

/-- Witness for C6 on a concrete empty prompts directory. -/
theorem empty_default_source_fails_witness :
    (runJob envEmpty "j1" none).snapshots.getLast?.map (·.status) = some .failed
    ∧ (runJob envEmpty "j1" none).units = none :=
  ⟨(empty_default_source_fails envEmpty "j1" rfl).1,
   (empty_default_source_fails envEmpty "j1" rfl).2.2.2.2.2.2⟩

/-! ## Claim C7: unit-list resolution -/

/-- Claim C7: a present non-empty `prompts` body field becomes the job's unit
list verbatim and in order; with `prompts` absent or empty the default unit
source builds the unit list (trimmed `.txt` file contents, or failure when
there are none). -/
theorem prompt_resolution_verbatim (env : Env) (i : String) :
    (∀ ps : List String, ps ≠ [] → (runJob env i (some ps)).units = some ps)
    ∧ (runJob env i none).units = defaultUnits env
    ∧ (runJob env i (some [])).units = defaultUnits env := by
  have hdef : ∀ c : Option (List String), useCustom c = false →
      (runJob env i c).units = defaultUnits env := by
    intro c hc
    by_cases hf : (env.promptsDirFiles.filter (fun f => strEndsWith f ".txt")).length = 0
    · have hres : resolvePrompts env c = .error "No .txt files found in prompts folder" := by
        simp [resolvePrompts, hc, hf]
      simp [runJob, hres, defaultUnits, hf]
    · have hres : resolvePrompts env c = .ok ((env.promptsDirFiles.filter
          (fun f => strEndsWith f ".txt")).map
            (fun f => (env.readFile (pathJoin promptsDir f)).trim)) := by
        simp [resolvePrompts, hc, hf]
      simp only [runJob, hres]
      rcases hini : env.workerInitError with _ | msg
      · rcases hcl : env.cleanupError with _ | m2 <;> simp [defaultUnits, hf]
      · simp [defaultUnits, hf]
  refine ⟨?_, hdef none rfl, hdef (some []) rfl⟩
  intro ps hps
  have hlen : 0 < ps.length := List.length_pos.2 hps
  have hres : resolvePrompts env (some ps) = .ok ps := by
    simp [resolvePrompts, useCustom, hlen]
  simp only [runJob, hres]
  rcases hini : env.workerInitError with _ | msg
  · rcases hcl : env.cleanupError with _ | m2 <;> simp
  · simp

/-- Witness for C7 at a concrete request body and at a concrete default
source. -/
theorem prompt_resolution_verbatim_witness :
    (runJob envA "j1" (some ["A", "B"])).units = some ["A", "B"]
    ∧ (runJob envA "j1" none).units = defaultUnits envA :=
  ⟨(prompt_resolution_verbatim envA "j1").1 ["A", "B"] (by decide),
   (prompt_resolution_verbatim envA "j1").2.1⟩

/-! ## Claims C9 and C10: the outputs HTTP handlers -/

/-- Claim C9: for a known job id, a missing output directory yields the
success response `{ outputs: [] }` rather than an error; an existing
directory yields `ok` with exactly the `.md` files present as filenames, each
paired with the download URL `/outputs/:jobId/:filename`. -/
theorem outputs_listing_spec (tbl : List (String × Job)) (fs : List (String × List String))
    (i : String) (j : Job) (hj : lookupJob tbl i = some j) :
    (lookupDir fs (outputDir i) = none → outputsHandler tbl fs i = .ok [])
    ∧ (∀ files, lookupDir fs (outputDir i) = some files →
        (respOutputs (outputsHandler tbl fs i)).map (fun l => l.map (·.filename))
            = some (files.filter (fun f => strEndsWith f ".md"))
        ∧ ∀ l, respOutputs (outputsHandler tbl fs i) = some l →
            ∀ o ∈ l, o.downloadUrl = "/outputs/" ++ i ++ "/" ++ o.filename) := by
  constructor
  · intro hd
    simp [outputsHandler, hj, hd]
  · intro files hd
    constructor
    · simp [outputsHandler, hj, hd, respOutputs, List.map_map, Function.comp_def]
    · intro l hl o ho
      simp only [outputsHandler, hj, hd, respOutputs, Option.some.injEq] at hl
      subst hl
      obtain ⟨f, hf, rfl⟩ := List.mem_map.1 ho
      rfl

/-- Witness for C9: missing directory, then a directory holding one `.md`
and one stray file. -/
theorem outputs_listing_spec_witness :
    outputsHandler [("a", sampleJob)] [] "a" = .ok []
    ∧ (respOutputs (outputsHandler [("a", sampleJob)]
          [("../outputs/a", ["x.md", "notes.txt"])] "a")).map (fun l => l.map (·.filename))
        = some ["x.md"] :=
  ⟨(outputs_listing_spec [("a", sampleJob)] [] "a" sampleJob (by decide)).1 rfl,
   by
    have h := ((outputs_listing_spec [("a", sampleJob)]
        [("../outputs/a", ["x.md", "notes.txt"])] "a" sampleJob (by decide)).2
        ["x.md", "notes.txt"] (by decide)).1
    rw [h]
    decide⟩

/-- Claim C10: a file present in a job's output directory whose name does not
end in `.md` is omitted from the `GET /api/outputs/:jobId` listing, yet
`GET /outputs/:jobId/:filename` still serves it, with Content-Type
`text/markdown` and an attachment disposition. -/
theorem md_filter_spec (tbl : List (String × Job)) (fs : List (String × List String))
    (i : String) (j : Job) (files : List String) (f : String)
    (hj : lookupJob tbl i = some j)
    (hd : lookupDir fs (outputDir i) = some files)
    (hf : f ∈ files) (hmd : strEndsWith f ".md" = false) :
    (∀ outs, outputsHandler tbl fs i = .ok outs → ∀ o ∈ outs, o.filename ≠ f)
    ∧ fileHandler tbl fs i f
        = .serveFile "text/markdown" ("attachment; filename=\"" ++ f ++ "\"") := by
  constructor
  · intro outs houts o ho
    simp only [outputsHandler, hj, hd, OutputsResp.ok.injEq] at houts
    subst houts
    obtain ⟨g, hg, rfl⟩ := List.mem_map.1 ho
    intro hEq
    simp only at hEq
    subst hEq
    rw [(List.mem_filter.1 hg).2] at hmd
    cases hmd
  · have hex : pathExistsFile fs (outputDir i) f = true := by
      simp [pathExistsFile, hd]
      exact hf
    simp [fileHandler, hj, hex]

/-- Witness for C10 with a `notes.txt` file alongside an `x.md` artifact. -/
theorem md_filter_spec_witness :
    fileHandler [("a", sampleJob)] [("../outputs/a", ["x.md", "notes.txt"])] "a" "notes.txt"
      = .serveFile "text/markdown" ("attachment; filename=\"" ++ "notes.txt" ++ "\"") :=
  (md_filter_spec [("a", sampleJob)] [("../outputs/a", ["x.md", "notes.txt"])]
      "a" sampleJob ["x.md", "notes.txt"] "notes.txt" (by decide) (by decide)
      (by decide) (by decide)).2

end DocBot
